import Mathlib

/-!
Verification development for the statistical data-cleaning engine of a tabular
data-cleaning backend (`backend/utils/data_cleaner.py` and
`backend/utils/ai_data_cleaner.py`).

Modelling conventions:
* A dataset is an ordered list of column names together with positionally
  aligned rows; a cell is missing (`na`, pandas `NaN`), a rational number
  (exact model of the numeric values flowing through the cleaning code), or a
  string.
* pandas reductions skip missing values (`mean`, `median`, `quantile`, `std`,
  `mode`, `nunique` all use `skipna`/`dropna` semantics), and a reduction over
  an empty set of values yields `NaN`; we model such results with `Option ℚ`
  where `none` plays the role of `NaN`.  Comparisons against `NaN` are false,
  which is modelled by flagging nothing when a statistic is `none`.
* The z-score test `|v - mean| / std > t` is rendered over exact rationals in
  the equivalent squared form `0 < ss ∧ (t < 0 ∨ t² · ss < (v - mean)² · (m-1))`
  where `ss` is the sum of squared deviations and `m` the non-missing count
  (`std = √(ss/(m-1))`, `ddof = 1`); the two agree for every `t` whenever `std`
  is positive and finite, and when `std` is `NaN` (m ≤ 1) or zero (ss = 0) the
  float code compares `NaN > t`, which is false, exactly as modelled.
* Python exceptions that escape (pandas `KeyError`/`TypeError`) are modelled
  with `Except String`; exceptions the source catches locally are modelled by
  the fallback behaviour of the corresponding `except` block.
-/

inductive Cell where
  | na : Cell
  | num (q : ℚ) : Cell
  | str (s : String) : Cell
  deriving DecidableEq, Repr

/-- The numeric (non-missing) values of a column, in row order. -/
def numsOf (cells : List Cell) : List ℚ :=
  cells.filterMap fun c => match c with
    | Cell.num q => some q
    | _ => none

/-- Whether the column contains any string cell (pandas `object` dtype with
text; numeric-only reductions raise `TypeError` on such a column). -/
def hasStr (cells : List Cell) : Bool :=
  cells.any fun c => match c with
    | Cell.str _ => true
    | _ => false

/-- `df[column].isnull().sum()` for one column. -/
def naCount (cells : List Cell) : Nat :=
  cells.countP fun c => c == Cell.na

/-- `df[column].mean()` (skipna); `none` models the `NaN` obtained on a column
with no non-missing numeric values. -/
def meanQ (cells : List Cell) : Option ℚ :=
  let ns := numsOf cells
  if ns.isEmpty then none else some (ns.sum / ns.length)

/-- Sum of squared deviations from the mean over the non-missing values. -/
def ssQ (cells : List Cell) : ℚ :=
  match meanQ cells with
  | none => 0
  | some μ => ((numsOf cells).map fun v => (v - μ) ^ 2).sum

/-- The column's non-missing values in ascending order. -/
def sortedNums (cells : List Cell) : List ℚ :=
  (numsOf cells).insertionSort (· ≤ ·)

/-- `df[column].quantile(q)` with pandas' default linear interpolation over the
sorted non-missing values: with `pos = q·(n-1)`, `i = ⌊pos⌋`, the result is
`ys[i] + (pos - i)·(ys[i+1] - ys[i])`.  `none` models the `NaN` returned for a
column with no non-missing values. -/
def quantileQ (q : ℚ) (cells : List Cell) : Option ℚ :=
  match sortedNums cells with
  | [] => none
  | y0 :: _ =>
    let ys := sortedNums cells
    let pos : ℚ := q * ((ys.length : ℚ) - 1)
    let i : Nat := pos.floor.toNat
    let base := ys.getD i y0
    let nxt := ys.getD (i + 1) base
    some (base + (pos - (i : ℚ)) * (nxt - base))

/-- Z-score outlier flags for one column: the exact-rational form of
`np.abs((col - col.mean()) / col.std()) > threshold` (see file header); missing
cells are never flagged (`NaN` comparisons are false). -/
def zscoreFlags (t : ℚ) (cells : List Cell) : List Bool :=
  match meanQ cells with
  | none => cells.map fun _ => false
  | some μ =>
    let m : ℚ := ((numsOf cells).length : ℚ)
    let ss := ((numsOf cells).map fun v => (v - μ) ^ 2).sum
    cells.map fun c => match c with
      | Cell.num v => decide (0 < ss ∧ (t < 0 ∨ t ^ 2 * ss < (v - μ) ^ 2 * (m - 1)))
      | _ => false

/-- Flags `value < lo ∨ value > hi` for given fences; missing cells unflagged. -/
def iqrFlagsWith (lo hi : ℚ) (cells : List Cell) : List Bool :=
  cells.map fun c => match c with
    | Cell.num v => decide (v < lo ∨ hi < v)
    | _ => false

/-- The IQR fences `(Q1 - t·IQR, Q3 + t·IQR)` of a column, when defined. -/
def iqrBounds (t : ℚ) (cells : List Cell) : Option (ℚ × ℚ) :=
  match quantileQ (1 / 4) cells, quantileQ (3 / 4) cells with
  | some q1, some q3 => some (q1 - t * (q3 - q1), q3 + t * (q3 - q1))
  | _, _ => none

/-- IQR outlier flags: `(col < Q1 - t·IQR) | (col > Q3 + t·IQR)`; on an all-
missing column the quantiles are `NaN` and every comparison is false. -/
def iqrFlags (t : ℚ) (cells : List Cell) : List Bool :=
  match iqrBounds t cells with
  | some (lo, hi) => iqrFlagsWith lo hi cells
  | none => cells.map fun _ => false

/-- `detect_outliers` (data_cleaner.py lines 6-20): z-score flags when the
method is the string `'zscore'`, otherwise the IQR flags (the `else` branch
catches every other method name). -/
def detect_outliers (cells : List Cell) (method : String) (threshold : ℚ) : List Bool :=
  if method == "zscore" then zscoreFlags threshold cells
  else iqrFlags threshold cells

/-- Exact square root of a natural number, when it exists. -/
def natSqrtExact (n : Nat) : Option Nat :=
  (List.range (n + 1)).find? fun k => k * k == n

/-- Exact rational square root where one exists, else 0.  The source computes
`std` as a float square root; the capping theorems below are evaluated on
columns whose variance is an exact rational square, where this agrees with the
real-valued standard deviation. -/
def sqrtQ (q : ℚ) : ℚ :=
  if q < 0 then 0
  else
    match natSqrtExact q.num.toNat, natSqrtExact q.den with
    | some a, some b => (a : ℚ) / (b : ℚ)
    | _, _ => 0

/-- `df[column].std()` (sample standard deviation, `ddof = 1`), via `sqrtQ`;
0 stands in for the `NaN` produced when fewer than two values are present. -/
def stdQ (cells : List Cell) : ℚ :=
  let m : ℚ := ((numsOf cells).length : ℚ)
  if m ≤ 1 then 0 else sqrtQ (ssQ cells / (m - 1))

/-- The z-score `cap` action of `clean_dataset` (data_cleaner.py lines 85-87):
every flagged value — whichever side of the mean it lies on — is overwritten
with the single scalar `mean + threshold·std`. -/
def capZscoreCD (t : ℚ) (cells : List Cell) : List Cell :=
  match meanQ cells with
  | none => cells
  | some μ =>
    let flags := zscoreFlags t cells
    let capv := μ + t * stdQ cells
    (cells.zip flags).map fun p => if p.2 then Cell.num capv else p.1

/-- The z-score `cap` action of `apply_ai_recommendations` (ai_data_cleaner.py
lines 755-764, threshold fixed at 3): each flagged value goes to
`mean + 3·std` if above the mean, else to `mean - 3·std`. -/
def capZscoreAI (cells : List Cell) : List Cell :=
  match meanQ cells with
  | none => cells
  | some μ =>
    let flags := zscoreFlags 3 cells
    let s := stdQ cells
    (cells.zip flags).map fun p =>
      match p.1, p.2 with
      | Cell.num v, true => Cell.num (if μ < v then μ + 3 * s else μ - 3 * s)
      | c, _ => c

/-- The IQR `cap` action (data_cleaner.py lines 89-93 and ai_data_cleaner.py
lines 784-795): first clip values below the lower fence up to it, then clip
values above the upper fence down to it, both fences computed once from the
column before mutation. -/
def capIQR (t : ℚ) (cells : List Cell) : List Cell :=
  match iqrBounds t cells with
  | none => cells
  | some (lo, hi) =>
    let step1 := cells.map fun c => match c with
      | Cell.num v => if v < lo then Cell.num lo else c
      | c => c
    step1.map fun c => match c with
      | Cell.num v => if hi < v then Cell.num hi else c
      | c => c

/-- Total order used to model the ascending order of `Series.mode()`. -/
def cellLe (a b : Cell) : Bool :=
  match a, b with
  | Cell.na, _ => true
  | _, Cell.na => false
  | Cell.num x, Cell.num y => decide (x ≤ y)
  | Cell.num _, Cell.str _ => true
  | Cell.str _, Cell.num _ => false
  | Cell.str x, Cell.str y => decide (x ≤ y)

/-- `df[column].mode()`: the most frequent non-missing values, ascending; the
result is empty exactly when the column has no non-missing values. -/
def modeCells (cells : List Cell) : List Cell :=
  let vs := cells.filter fun c => !(c == Cell.na)
  let uniq := vs.dedup
  let mx := (uniq.map fun v => vs.count v).foldr max 0
  (uniq.filter fun v => vs.count v == mx).insertionSort fun a b => cellLe a b = true

/-- `Series.fillna(v)` on one column. -/
def fillna (cells : List Cell) (v : Cell) : List Cell :=
  cells.map fun c => if c == Cell.na then v else c

/-- `handle_missing_values` (data_cleaner.py lines 22-35).  `mean`/`median` on
a column holding text raise `TypeError` (pandas object-dtype reduction); a
`mean`/`median` of an all-missing numeric column is `NaN` and `fillna(NaN)` is
a no-op; `mode` indexes `mode()[0]`, which raises `KeyError` when the mode
series is empty (all-missing column); `drop` returns the column without its
missing cells; any other method returns the column unchanged. -/
def handle_missing_values (cells : List Cell) (method : String) : Except String (List Cell) :=
  if method == "mean" then
    if hasStr cells then Except.error "TypeError" else
    match meanQ cells with
    | none => Except.ok cells
    | some v => Except.ok (fillna cells (Cell.num v))
  else if method == "median" then
    if hasStr cells then Except.error "TypeError" else
    match quantileQ (1 / 2) cells with
    | none => Except.ok cells
    | some v => Except.ok (fillna cells (Cell.num v))
  else if method == "mode" then
    match modeCells cells with
    | [] => Except.error "KeyError: 0"
    | v :: _ => Except.ok (fillna cells v)
  else if method == "drop" then
    Except.ok (cells.filter fun c => !(c == Cell.na))
  else Except.ok cells

/-- A dataset: ordered column names and positionally aligned rows. -/
structure Dataset where
  cols : List String
  rows : List (List Cell)
  deriving DecidableEq, Repr

/-- Index of a column name (pandas column lookup). -/
def colIdx (d : Dataset) (name : String) : Option Nat :=
  d.cols.indexOf? name

/-- The cells of column `j`, in row order. -/
def colValues (d : Dataset) (j : Nat) : List Cell :=
  d.rows.map fun r => r.getD j Cell.na

/-- Overwrite column `j` with the given cells (a column assignment such as
`cleaned_df[column] = ...` or a `.loc[mask, column] = ...` update whose result
has already been computed column-wise). -/
def setCol (d : Dataset) (j : Nat) (vs : List Cell) : Dataset :=
  ⟨d.cols, (d.rows.zip vs).map fun p => p.1.set j p.2⟩

/-- `df.dropna(subset=[column])`: keep the rows whose `j`-th cell is present. -/
def dropNaRows (d : Dataset) (j : Nat) : Dataset :=
  ⟨d.cols, d.rows.filter fun r => !(r.getD j Cell.na == Cell.na)⟩

/-- Keep the rows whose mask entry is `true` (`df[mask]`). -/
def filterMask : List (List Cell) → List Bool → List (List Cell)
  | [], _ => []
  | _, [] => []
  | r :: rs, k :: ks => if k then r :: filterMask rs ks else filterMask rs ks

/-- The identity key of a row: the whole row, or its restriction to a column
subset (`drop_duplicates(subset=...)`; pandas treats `NaN` keys as equal). -/
def keyOf (subset : Option (List Nat)) (r : List Cell) : List Cell :=
  match subset with
  | none => r
  | some js => js.map fun j => r.getD j Cell.na

def dedupRowsAux (subset : Option (List Nat)) (seen : List (List Cell)) :
    List (List Cell) → List (List Cell)
  | [] => []
  | r :: rs =>
    let k := keyOf subset r
    if k ∈ seen then dedupRowsAux subset seen rs
    else r :: dedupRowsAux subset (k :: seen) rs

/-- `df.drop_duplicates(subset=..., keep='first')`. -/
def dedupRows (subset : Option (List Nat)) (rows : List (List Cell)) : List (List Cell) :=
  dedupRowsAux subset [] rows

/-- `analyze_dataframe`'s `potential_duplicates` (ai_data_cleaner.py line 53):
the number of exact-duplicate rows of the dataset, all columns as key. -/
def potential_duplicates (d : Dataset) : Nat :=
  d.rows.length - (dedupRows none d.rows).length

/-- Per-column missing counts, `df.isnull().sum().to_dict()`. -/
def missingCounts (d : Dataset) : List (String × Nat) :=
  d.cols.enum.map fun p => (p.2, naCount (colValues d p.1))

/-- Column names of numeric dtype (`select_dtypes(include=[np.number])`):
columns whose cells are all numeric or missing. -/
def numericCols (d : Dataset) : List String :=
  (d.cols.enum.filter fun p => !hasStr (colValues d p.1)).map Prod.snd

/-- Fold a list of fallible steps, stopping at the first error. -/
def foldSteps {σ α ε : Type} (f : σ → α → Except ε σ) : σ → List α → Except ε σ
  | s, [] => Except.ok s
  | s, x :: xs =>
    match f s x with
    | Except.error e => Except.error e
    | Except.ok s' => foldSteps f s' xs

/-- One column's outlier options in `clean_dataset`'s `options['outliers']`
(the `.get` defaults already resolved). -/
structure OutlierOpt where
  enabled : Bool
  method : String
  action : String
  threshold : ℚ
  deriving DecidableEq, Repr

/-- The `options` dictionary accepted by `clean_dataset`; a per-column
missing-value entry given as a dict is collapsed to its `method` string, as
the source itself does (lines 57-59). -/
structure CleanOptions where
  missing_values : List (String × String)
  remove_duplicates : Bool
  outliers : List (String × OutlierOpt)
  deriving DecidableEq, Repr

/-- One column's entry of `report['outliers_handled']`; `threshold` is present
in `clean_dataset`'s report and absent from `apply_ai_recommendations`'s. -/
structure OutlierReport where
  method : String
  action : String
  threshold : Option ℚ
  count : Nat
  deriving DecidableEq, Repr

/-- The report built by `clean_dataset` (data_cleaner.py lines 42-49, 102-104). -/
structure Report where
  original_rows : Nat
  original_columns : Nat
  missing_values_before : List (String × Nat)
  duplicates_removed : Nat
  outliers_handled : List (String × OutlierReport)
  missing_values_handled : List (String × String)
  final_rows : Nat
  final_columns : Nat
  missing_values_after : List (String × Nat)
  deriving DecidableEq, Repr

/-- One iteration of `clean_dataset`'s missing-value loop (lines 55-66): when
the column appears in `options['missing_values']`, `drop` removes the rows
missing in it, `mean`/`median`/`mode` assign `handle_missing_values`'s result
back to the column, any other method only records itself in the report. -/
def missingStepCD (options : CleanOptions) (s : Dataset × List (String × String))
    (column : String) : Except String (Dataset × List (String × String)) :=
  match options.missing_values.lookup column with
  | none => Except.ok s
  | some method =>
    let d := s.1
    let j := (colIdx d column).getD 0
    if method == "drop" then
      Except.ok (dropNaRows d j, s.2 ++ [(column, method)])
    else if method == "mean" || method == "median" || method == "mode" then
      match handle_missing_values (colValues d j) method with
      | Except.error e => Except.error e
      | Except.ok vs => Except.ok (setCol d j vs, s.2 ++ [(column, method)])
    else Except.ok (d, s.2 ++ [(column, method)])

/-- One iteration of `clean_dataset`'s outlier loop (lines 75-100) for a
numeric column: flags are detected with the configured method and threshold;
`remove` drops the flagged rows, `cap` overwrites via the z-score or IQR
capping rule; the report records the pre-action flag count. -/
def outlierStepCD (options : CleanOptions) (s : Dataset × List (String × OutlierReport))
    (column : String) : Dataset × List (String × OutlierReport) :=
  match options.outliers.lookup column with
  | none => s
  | some o =>
    if !o.enabled then s
    else
      let d := s.1
      let j := (colIdx d column).getD 0
      let cells := colValues d j
      let flags := detect_outliers cells o.method o.threshold
      let cnt := flags.count true
      let d' : Dataset :=
        if o.action == "remove" then ⟨d.cols, filterMask d.rows (flags.map (!·))⟩
        else if o.action == "cap" then
          if o.method == "zscore" then setCol d j (capZscoreCD o.threshold cells)
          else setCol d j (capIQR o.threshold cells)
        else d
      (d', s.2 ++ [(column, ⟨o.method, o.action, some o.threshold, cnt⟩)])

/-- The missing-value phase of `clean_dataset`: the loop of lines 55-66 over
the dataset's columns in their column order. -/
def mvPhaseCD (options : CleanOptions) (df : Dataset) :
    Except String (Dataset × List (String × String)) :=
  foldSteps (missingStepCD options) (df, []) df.cols

/-- `clean_dataset` (data_cleaner.py lines 37-106): copy, missing-value loop,
duplicate removal over all columns when requested, outlier loop over the
numeric columns, and the report of row/column counts and actions taken. -/
def clean_dataset (df : Dataset) (options : CleanOptions) : Except String (Dataset × Report) :=
  match mvPhaseCD options df with
  | Except.error e => Except.error e
  | Except.ok (d1, mvh) =>
    let d2 : Dataset :=
      if options.remove_duplicates then ⟨d1.cols, dedupRows none d1.rows⟩ else d1
    let dups := d1.rows.length - d2.rows.length
    let r3 := (numericCols d2).foldl (outlierStepCD options) (d2, [])
    Except.ok (r3.1,
      { original_rows := df.rows.length
        original_columns := df.cols.length
        missing_values_before := missingCounts df
        duplicates_removed := dups
        outliers_handled := r3.2
        missing_values_handled := mvh
        final_rows := r3.1.rows.length
        final_columns := r3.1.cols.length
        missing_values_after := missingCounts r3.1 })

/-- Comparison definition following the claimed order of operations (spec §4.5):
duplicate removal first, on the full untouched dataset, then the per-column
missing-value resolution, then outlier handling.  Used only to compare against
`clean_dataset`, whose actual order differs. -/
def clean_dataset_spec_order (df : Dataset) (options : CleanOptions) :
    Except String (Dataset × Report) :=
  let d1 : Dataset :=
    if options.remove_duplicates then ⟨df.cols, dedupRows none df.rows⟩ else df
  let dups := df.rows.length - d1.rows.length
  match foldSteps (missingStepCD options) (d1, []) d1.cols with
  | Except.error e => Except.error e
  | Except.ok (d2, mvh) =>
    let r3 := (numericCols d2).foldl (outlierStepCD options) (d2, [])
    Except.ok (r3.1,
      { original_rows := df.rows.length
        original_columns := df.cols.length
        missing_values_before := missingCounts df
        duplicates_removed := dups
        outliers_handled := r3.2
        missing_values_handled := mvh
        final_rows := r3.1.rows.length
        final_columns := r3.1.cols.length
        missing_values_after := missingCounts r3.1 })

/-- An audit log entry (ai_data_cleaner.py `DataAuditLog`); the wall-clock
timestamp and the free-form details mapping are not modelled, the operation
tag, affected column and rows-affected count are. -/
structure DataAuditLog where
  operation : String
  column : Option String
  rows_affected : Nat
  deriving DecidableEq, Repr

/-- One column's cleaning recommendation (ai_data_cleaner.py
`DataCleaningRecommendation`); the dict lookups with defaults
(`missing_values.get('method', 'none')` etc.) are collapsed into the string
fields, and the prose fields (reason, importance, data type) that the cleaning
loop never branches on are omitted. -/
structure DataCleaningRecommendation where
  column_name : String
  missing_method : String
  outlier_method : String
  outlier_action : String
  value_transformations : List String
  deriving DecidableEq, Repr

/-- A dataset-level recommendation (`DatasetRecommendation`); `overall_advice`
is prose and not modelled. -/
structure DatasetRecommendation where
  duplicate_removal : Bool
  column_recommendations : List DataCleaningRecommendation
  deriving DecidableEq, Repr

/-- Python's substring containment `pattern in text`. -/
def containsSub (text pattern : String) : Bool :=
  (text.splitOn pattern).length > 1

/-- `nunique()` of a column (missing values excluded). -/
def nunique (cells : List Cell) : Nat :=
  ((cells.filter fun c => !(c == Cell.na)).dedup).length

/-- The heuristic column score of the fallback duplicate detector
(ai_data_cleaner.py lines 541-577): +5 for an id-like name token, +3 for a
person-like token, +4 for a contact-like token (all lowercase substring
matches), and a uniqueness component chosen by an if/elif chain that gives +3
for a ratio strictly between 0.5 and 1.0, +6 for exactly 1.0, and +4 for a
ratio above 0.8 only when neither earlier branch matched. -/
def column_score (name : String) (uniqueness : ℚ) : Nat :=
  let l := name.toLower
  let s1 := if ["id", "code", "key", "num", "number"].any (containsSub l) then 5 else 0
  let s2 := if ["name", "user", "customer", "client", "person"].any (containsSub l) then 3 else 0
  let s3 := if ["email", "mail", "phone", "contact"].any (containsSub l) then 4 else 0
  let s4 :=
    if 1 / 2 < uniqueness ∧ uniqueness < 1 then 3
    else if uniqueness = 1 then 6
    else if 4 / 5 < uniqueness then 4
    else 0
  s1 + s2 + s3 + s4

/-- Comparison definition following the claim's words for the same score:
name tokens id/code/key/number +5, name/customer/user/client/person +3,
email/phone/contact +4; uniqueness exactly 1.0 +6, above 0.8 +4, strictly
between 0.5 and 1.0 +3 (buckets read in the order listed). -/
def column_score_spec (name : String) (uniqueness : ℚ) : Nat :=
  let l := name.toLower
  let s1 := if ["id", "code", "key", "number"].any (containsSub l) then 5 else 0
  let s2 := if ["name", "customer", "user", "client", "person"].any (containsSub l) then 3 else 0
  let s3 := if ["email", "phone", "contact"].any (containsSub l) then 4 else 0
  let s4 :=
    if uniqueness = 1 then 6
    else if 4 / 5 < uniqueness then 4
    else if 1 / 2 < uniqueness ∧ uniqueness < 1 then 3
    else 0
  s1 + s2 + s3 + s4

/-- `nunique/len` uniqueness ratio of column `j` (0 on an empty dataset). -/
def uniquenessRatio (d : Dataset) (j : Nat) : ℚ :=
  if d.rows.length == 0 then 0
  else (nunique (colValues d j) : ℚ) / (d.rows.length : ℚ)

/-- `potential_id_columns` (ai_data_cleaner.py lines 538-580): the columns with
positive score, paired with their scores, sorted by score descending (Python's
stable sort, so ties keep column order). -/
def potential_id_columns (d : Dataset) : List (String × Nat) :=
  let scored := d.cols.enum.map fun p => (p.2, column_score p.2 (uniquenessRatio d p.1))
  (scored.filter fun q => 0 < q.2).insertionSort fun a b => b.2 ≤ a.2

/-- The chosen duplicate-identity subset (ai_data_cleaner.py lines 582-596):
all columns scoring ≥ 5 if any, else the top `min(3, len)` scorers, and `none`
(use all columns) when no column scores above zero. -/
def duplicate_subset (d : Dataset) : Option (List String) :=
  let pot := potential_id_columns d
  if pot.isEmpty then none
  else
    let high := (pot.filter fun q => 5 ≤ q.2).map Prod.fst
    if high.isEmpty then some ((pot.take 3).map Prod.fst) else some high

/-- The duplicate-removal data step of `apply_ai_recommendations` (lines
598-604), on the fallback scoring path (the LLM branch is an external
collaborator; with no usable key from it the source falls through to the
scorer): drop later duplicates under the chosen subset, or under all columns. -/
def aiDedupData (d : Dataset) : Dataset :=
  match duplicate_subset d with
  | some names =>
    ⟨d.cols, dedupRows (some (names.map fun nm => (colIdx d nm).getD 0)) d.rows⟩
  | none => ⟨d.cols, dedupRows none d.rows⟩

/-- The running state of `apply_ai_recommendations`'s per-column loop: the
working dataset, the audit log, and the two report dictionaries it fills. -/
structure AIState where
  data : Dataset
  audit : List DataAuditLog
  mvh : List (String × String)
  outh : List (String × OutlierReport)
  deriving DecidableEq, Repr

/-- The missing-value sub-step of `apply_ai_recommendations` (lines 632-714):
`drop` removes the rows missing in the column and logs the row delta;
`mean`/`median` on a numeric column fill with the statistic (a no-op when the
statistic is itself `NaN`, i.e. an all-missing column) and log the prior
missing count; `mode` fills and logs only when the mode series is non-empty;
every non-`'none'` method is recorded in `missing_values_handled`. -/
def aiMissing (s : AIState) (column : String) (method : String) : AIState :=
  if method == "none" then s
  else
    let d := s.data
    let j := (colIdx d column).getD 0
    let cells := colValues d j
    let mb := naCount cells
    let s1 :=
      if method == "drop" then
        let d' := dropNaRows d j
        { s with data := d',
                 audit := s.audit ++ [⟨"drop_missing_values", some column,
                   d.rows.length - d'.rows.length⟩] }
      else if method == "mean" && !hasStr cells then
        let d' := match meanQ cells with
          | none => d
          | some v => setCol d j (fillna cells (Cell.num v))
        { s with data := d',
                 audit := s.audit ++ [⟨"fill_missing_values", some column, mb⟩] }
      else if method == "median" && !hasStr cells then
        let d' := match quantileQ (1 / 2) cells with
          | none => d
          | some v => setCol d j (fillna cells (Cell.num v))
        { s with data := d',
                 audit := s.audit ++ [⟨"fill_missing_values", some column, mb⟩] }
      else if method == "mode" then
        match modeCells cells with
        | [] => s
        | v :: _ =>
          { s with data := setCol d j (fillna cells v),
                   audit := s.audit ++ [⟨"fill_missing_values", some column, mb⟩] }
      else s
    { s1 with mvh := s1.mvh ++ [(column, method)] }

/-- The outlier sub-step of `apply_ai_recommendations` (lines 716-818) for a
numeric column: flags come from z-score (threshold 3) or IQR (multiplier 1.5);
`remove` and `cap` act — and append their audit entry — only when at least one
value is flagged; the report records method, action and count whenever the
method is not `'none'` and the column is numeric. -/
def aiOutliers (s : AIState) (column : String) (method action : String) : AIState :=
  let d := s.data
  let j := (colIdx d column).getD 0
  let cells := colValues d j
  if method == "none" || hasStr cells then s
  else
    let flags := if method == "zscore" then zscoreFlags 3 cells else iqrFlags (3 / 2) cells
    let cnt := flags.count true
    let s1 :=
      if action == "remove" && decide (0 < cnt) then
        let d' : Dataset := ⟨d.cols, filterMask d.rows (flags.map (!·))⟩
        { s with data := d',
                 audit := s.audit ++ [⟨"remove_outliers", some column,
                   d.rows.length - d'.rows.length⟩] }
      else if action == "cap" && decide (0 < cnt) then
        let d' :=
          if method == "zscore" then setCol d j (capZscoreAI cells)
          else setCol d j (capIQR (3 / 2) cells)
        { s with data := d',
                 audit := s.audit ++ [⟨"cap_outliers", some column, cnt⟩] }
      else s
    { s1 with outh := s1.outh ++ [(column, ⟨method, action, none, cnt⟩)] }

/-- `"Ensure all prices are positive"` (lines 824-837): on a column holding
text the `min() < 0` comparison raises `TypeError`; on a numeric column with a
negative minimum the negative cells are set to 0 and one entry is logged. -/
def transformPricePos (s : AIState) (column : String) : Except String AIState :=
  let d := s.data
  let j := (colIdx d column).getD 0
  let cells := colValues d j
  if hasStr cells then Except.error "TypeError"
  else
    match (numsOf cells).min? with
    | none => Except.ok s
    | some mn =>
      if mn < 0 then
        let negc := (numsOf cells).countP fun v => decide (v < 0)
        Except.ok { s with
          data := setCol d j (cells.map fun c => match c with
            | Cell.num v => if v < 0 then Cell.num 0 else c
            | c => c),
          audit := s.audit ++ [⟨"value_transformation", some column, negc⟩] }
      else Except.ok s

/-- `"Ensure all values are positive"` (lines 840-854): `TypeError` on text;
otherwise the negative cells are replaced by their absolute values and one
entry is logged, only when at least one cell is negative. -/
def transformAllPos (s : AIState) (column : String) : Except String AIState :=
  let d := s.data
  let j := (colIdx d column).getD 0
  let cells := colValues d j
  if hasStr cells then Except.error "TypeError"
  else
    let negc := (numsOf cells).countP fun v => decide (v < 0)
    if 0 < negc then
      Except.ok { s with
        data := setCol d j (cells.map fun c => match c with
          | Cell.num v => if v < 0 then Cell.num (-v) else c
          | c => c),
        audit := s.audit ++ [⟨"value_transformation", some column, negc⟩] }
    else Except.ok s

/-- numpy/pandas `round` uses round-half-to-even. -/
def roundHalfEven (x : ℚ) : ℤ :=
  let f := ⌊x⌋
  let r := x - (f : ℚ)
  if r < 1 / 2 then f
  else if 1 / 2 < r then f + 1
  else if f % 2 == 0 then f else f + 1

/-- `Series.round(2)`. -/
def roundQ2 (x : ℚ) : ℚ :=
  ((roundHalfEven (x * 100) : ℚ)) / 100

/-- `"Round to standard currency precision (2 decimal places)"` (lines
856-868): `TypeError` on text; otherwise every numeric cell is rounded and one
entry with `rows_affected = len(cleaned_df)` is always logged. -/
def transformRound (s : AIState) (column : String) : Except String AIState :=
  let d := s.data
  let j := (colIdx d column).getD 0
  let cells := colValues d j
  if hasStr cells then Except.error "TypeError"
  else
    Except.ok { s with
      data := setCol d j (cells.map fun c => match c with
        | Cell.num v => Cell.num (roundQ2 v)
        | c => c),
      audit := s.audit ++ [⟨"value_transformation", some column, d.rows.length⟩] }

/-- Truncation toward zero, numpy `astype(int)` on floats. -/
def truncQ (x : ℚ) : ℤ :=
  if 0 ≤ x then ⌊x⌋ else ⌈x⌉

/-- `"Convert to integer values"` (lines 870-886): the body is wrapped in a
`try/except` that makes any failure a logged no-op, so a column holding text
(where `float(x)` raises) is left unchanged; on a numeric column the
non-integer count (missing cells included, since `float(nan).is_integer()` is
false) is logged and the column becomes `fillna(0).astype(int)`. -/
def transformToInt (s : AIState) (column : String) : AIState :=
  let d := s.data
  let j := (colIdx d column).getD 0
  let cells := colValues d j
  if hasStr cells then s
  else
    let nonint := cells.countP fun c => match c with
      | Cell.num v => !(v.den == 1)
      | Cell.na => true
      | _ => false
    { s with
      data := setCol d j (cells.map fun c => match c with
        | Cell.na => Cell.num 0
        | Cell.num v => Cell.num ((truncQ v : ℤ) : ℚ)
        | c => c),
      audit := s.audit ++ [⟨"value_transformation", some column, nonint⟩] }

/-- The value-transformation sub-step (lines 820-886): the four named
directives are tested independently, in source order. -/
def aiTransforms (s : AIState) (column : String) (ts : List String) :
    Except String AIState :=
  if ts.isEmpty then Except.ok s
  else
    match (if ts.contains "Ensure all prices are positive"
           then transformPricePos s column else Except.ok s) with
    | Except.error e => Except.error e
    | Except.ok s1 =>
      match (if ts.contains "Ensure all values are positive"
             then transformAllPos s1 column else Except.ok s1) with
      | Except.error e => Except.error e
      | Except.ok s2 =>
        match (if ts.contains "Round to standard currency precision (2 decimal places)"
               then transformRound s2 column else Except.ok s2) with
        | Except.error e => Except.error e
        | Except.ok s3 =>
          Except.ok (if ts.contains "Convert to integer values"
                     then transformToInt s3 column else s3)

/-- One iteration of the per-column loop of `apply_ai_recommendations` (lines
625-886): a recommendation for a column no longer present is skipped; then the
missing-value sub-step, then the outlier sub-step, then value transformations. -/
def aiColumnStep (s : AIState) (rec : DataCleaningRecommendation) :
    Except String AIState :=
  if !(s.data.cols.contains rec.column_name) then Except.ok s
  else
    let s1 := aiMissing s rec.column_name rec.missing_method
    let s2 := aiOutliers s1 rec.column_name rec.outlier_method rec.outlier_action
    aiTransforms s2 rec.column_name rec.value_transformations

/-- The report built by `apply_ai_recommendations` (lines 453-463, 888-891);
the echoed recommendation set and e-commerce flag are omitted. -/
structure AIReport where
  original_rows : Nat
  original_columns : Nat
  missing_values_before : List (String × Nat)
  duplicates_removed : Nat
  outliers_handled : List (String × OutlierReport)
  missing_values_handled : List (String × String)
  audit_log : List DataAuditLog
  final_rows : Nat
  final_columns : Nat
  missing_values_after : List (String × Nat)
  deriving DecidableEq, Repr

/-- `apply_ai_recommendations` (ai_data_cleaner.py lines 442-893): copy, then
— when recommended — duplicate removal with the heuristic identity subset and
its always-appended audit entry, then the per-column loop, then the final
report statistics. -/
def apply_ai_recommendations (df : Dataset) (recommendations : DatasetRecommendation) :
    Except String (Dataset × AIReport) :=
  let d1 := if recommendations.duplicate_removal then aiDedupData df else df
  let dups := df.rows.length - d1.rows.length
  let audit0 : List DataAuditLog :=
    if recommendations.duplicate_removal then [⟨"remove_duplicates", none, dups⟩] else []
  match foldSteps aiColumnStep ⟨d1, audit0, [], []⟩ recommendations.column_recommendations with
  | Except.error e => Except.error e
  | Except.ok s =>
    Except.ok (s.data,
      { original_rows := df.rows.length
        original_columns := df.cols.length
        missing_values_before := missingCounts df
        duplicates_removed := dups
        outliers_handled := s.outh
        missing_values_handled := s.mvh
        audit_log := s.audit
        final_rows := s.data.rows.length
        final_columns := s.data.cols.length
        missing_values_after := missingCounts s.data })

/-- The `ok` payload of a run, `none` on an uncaught exception. -/
def okVal {α : Type} : Except String α → Option α
  | Except.ok a => some a
  | Except.error _ => none

/-- The uncaught exception of a run, if any. -/
def errVal {α : Type} : Except String α → Option String
  | Except.ok _ => none
  | Except.error e => some e

/-- Heap write at an address (the in-place pandas mutations of one object). -/
def heapWrite (heap : List Dataset) (b : Nat) (d : Dataset) : List Dataset :=
  heap.set b d

/-- `clean_dataset` at the object level: the heap lists the live dataset
objects by address; the call reads the caller's dataset at `a`, allocates the
fresh copy `cleaned_df = df.copy()` at the next address, and every mutating
statement of the source targets that copy, so the run amounts to writing the
cleaned result at the fresh address. -/
def clean_dataset_proc (heap : List Dataset) (a : Nat) (options : CleanOptions) :
    Except String (List Dataset × Nat × Report) :=
  let df := heap.getD a ⟨[], []⟩
  let b := heap.length
  let heap1 := heap ++ [df]
  match clean_dataset df options with
  | Except.error e => Except.error e
  | Except.ok (out, rep) => Except.ok (heapWrite heap1 b out, b, rep)

/-- `apply_ai_recommendations` at the object level, same discipline
(ai_data_cleaner.py line 447: `cleaned_df = df.copy()`). -/
def apply_ai_proc (heap : List Dataset) (a : Nat) (recs : DatasetRecommendation) :
    Except String (List Dataset × Nat × AIReport) :=
  let df := heap.getD a ⟨[], []⟩
  let b := heap.length
  let heap1 := heap ++ [df]
  match apply_ai_recommendations df recs with
  | Except.error e => Except.error e
  | Except.ok (out, rep) => Except.ok (heapWrite heap1 b out, b, rep)

/-- Row/column invariant of a `clean_dataset` report (vacuous on abort, where
no report is produced). -/
def RowColInv : Except String (Dataset × Report) → Prop
  | Except.ok p => p.2.final_rows ≤ p.2.original_rows ∧ p.2.final_columns = p.2.original_columns
  | Except.error _ => True

/-- Row/column invariant of an `apply_ai_recommendations` report. -/
def RowColInvAI : Except String (Dataset × AIReport) → Prop
  | Except.ok p => p.2.final_rows ≤ p.2.original_rows ∧ p.2.final_columns = p.2.original_columns
  | Except.error _ => True

/-- All addresses that existed before a `clean_dataset_proc` call hold their
original objects afterwards, and the returned dataset is the fresh address. -/
def heapPreservedCD (heap : List Dataset) :
    Except String (List Dataset × Nat × Report) → Prop
  | Except.ok r => r.1.take heap.length = heap ∧ r.2.1 = heap.length
  | Except.error _ => True

/-- Same, for `apply_ai_proc`. -/
def heapPreservedAI (heap : List Dataset) :
    Except String (List Dataset × Nat × AIReport) → Prop
  | Except.ok r => r.1.take heap.length = heap ∧ r.2.1 = heap.length
  | Except.error _ => True

/-- C1 example: a numeric column of fifteen 16s and one 0.  Its mean is 15 and
its sample standard deviation exactly 4, so the 0 has z-score 15/4 > 3 and is
the only flagged value, and it lies below the mean. -/
def c1df : Dataset :=
  ⟨["a"], (List.replicate 15 (Cell.num 16) ++ [Cell.num 0]).map fun c => [c]⟩

def c1opts : CleanOptions :=
  ⟨[], false, [("a", ⟨true, "zscore", "cap", 3⟩)]⟩

/-- C3 example column: `[0, 1, 1, 1]` (Q1 = 3/4, Q3 = 1, so the 0 is below the
lower fence 3/8). -/
def c3cells : List Cell :=
  [Cell.num 0, Cell.num 1, Cell.num 1, Cell.num 1]

/-- C5 example: a single all-missing column. -/
def c5df : Dataset := ⟨["a"], [[Cell.na], [Cell.na]]⟩

def c5opts : CleanOptions := ⟨[("a", "mode")], false, []⟩

def c5recs : DatasetRecommendation :=
  ⟨false, [⟨"a", "mode", "none", "none", []⟩]⟩

/-- C6 example: `[1, missing, 1]` with mean imputation and duplicate removal
both requested; mean-filling first turns all three rows into `[1]`. -/
def c6df : Dataset := ⟨["a"], [[Cell.num 1], [Cell.na], [Cell.num 1]]⟩

def c6opts : CleanOptions := ⟨[("a", "mean")], true, []⟩

/-- C7 example: column `a` all-missing numeric with `mean` recommended, column
`b` = `[1, 2, 3]` with z-score capping recommended (it has no outliers). -/
def c7df : Dataset :=
  ⟨["a", "b"], [[Cell.na, Cell.num 1], [Cell.na, Cell.num 2], [Cell.na, Cell.num 3]]⟩

def c7recs : DatasetRecommendation :=
  ⟨false, [⟨"a", "mean", "none", "none", []⟩, ⟨"b", "none", "zscore", "cap", []⟩]⟩

/-- C10 witness column. -/
def c10cells : List Cell := [Cell.num 1, Cell.num 2, Cell.num 100]

theorem sum_const_list (l : List ℚ) (c : ℚ) (h : ∀ v ∈ l, v = c) :
    l.sum = l.length * c := by
  induction l with
  | nil => simp
  | cons a l ih =>
    have ha : a = c := h a (by simp)
    have hl : ∀ v ∈ l, v = c := fun v hv => h v (by simp [hv])
    simp [ha, ih hl]
    ring

theorem mean_const (c : ℚ) (cells : List Cell) (h : ∀ v ∈ numsOf cells, v = c) :
    ∀ μ, meanQ cells = some μ → μ = c := by
  intro μ hm
  unfold meanQ at hm
  cases he : (numsOf cells).isEmpty with
  | true => simp [he] at hm
  | false =>
    simp only [he, Bool.false_eq_true, if_false, Option.some.injEq] at hm
    have hne : ((numsOf cells).length : ℚ) ≠ 0 := by
      have h0 : (numsOf cells).length ≠ 0 := by
        intro h0
        rw [List.isEmpty_iff_length_eq_zero.mpr h0] at he
        exact Bool.true_eq_false.mp he
      exact_mod_cast h0
    rw [← hm, sum_const_list (numsOf cells) c h, mul_comm, mul_div_assoc,
      div_self hne, mul_one]

theorem zscore_const_flags_false (t c : ℚ) (cells : List Cell)
    (h : ∀ v ∈ numsOf cells, v = c) :
    zscoreFlags t cells = List.replicate cells.length false := by
  rw [List.eq_replicate_iff]
  refine ⟨?_, ?_⟩
  · unfold zscoreFlags
    cases meanQ cells <;> simp
  · intro b hb
    unfold zscoreFlags at hb
    cases hm : meanQ cells with
    | none =>
      rw [hm] at hb
      simp only [List.mem_map] at hb
      obtain ⟨x, _, rfl⟩ := hb
      rfl
    | some μ =>
      rw [hm] at hb
      simp only [List.mem_map] at hb
      obtain ⟨x, _, rfl⟩ := hb
      have hss : ((numsOf cells).map fun v => (v - μ) ^ 2).sum = 0 := by
        apply List.sum_eq_zero
        intro y hy
        simp only [List.mem_map] at hy
        obtain ⟨w, hw, rfl⟩ := hy
        rw [h w hw, mean_const c cells h μ hm]
        ring
      cases x with
      | na => rfl
      | str s => rfl
      | num v =>
        simp only [hss]
        simp

/-- C4: on a numeric column whose values are all identical (standard deviation
exactly zero), z-score outlier detection flags no row, and the run is a total
function — the division by zero behind `NaN` never surfaces as an error. -/
theorem c4_zero_std_zscore_no_outliers (cells : List Cell) (t c : ℚ)
    (h : ∀ v ∈ numsOf cells, v = c) :
    detect_outliers cells "zscore" t = List.replicate cells.length false ∧
    (detect_outliers cells "zscore" t).count true = 0 := by
  have hz := zscore_const_flags_false t c cells h
  have hd : detect_outliers cells "zscore" t = List.replicate cells.length false := by
    unfold detect_outliers
    simpa using hz
  refine ⟨hd, ?_⟩
  rw [hd, List.count_replicate]
  rfl

theorem c4_witness :
    detect_outliers [Cell.num 5, Cell.num 5, Cell.num 5] "zscore" 3 =
      List.replicate 3 false ∧
    (detect_outliers [Cell.num 5, Cell.num 5, Cell.num 5] "zscore" 3).count true = 0 :=
  c4_zero_std_zscore_no_outliers [Cell.num 5, Cell.num 5, Cell.num 5] 3 5 (by decide)

/-- C10: in `detect_outliers`, every method name other than `'zscore'` falls
into the `else` branch and yields the IQR flags — no method name is rejected
with an error or an empty result. -/
theorem c10_non_zscore_method_is_iqr (cells : List Cell) (method : String) (t : ℚ)
    (h : method ≠ "zscore") :
    detect_outliers cells method t = iqrFlags t cells := by
  unfold detect_outliers
  simp [h]

theorem c10_witness :
    detect_outliers c10cells "unknown" (3 / 2) = iqrFlags (3 / 2) c10cells :=
  c10_non_zscore_method_is_iqr c10cells "unknown" (3 / 2) (by decide)

/-- C1 (code bug): in `clean_dataset`, the z-score `cap` action writes the
single scalar `mean + threshold·std` into every flagged cell.  On the column
of fifteen 16s and one 0 (mean 15, std 4, threshold 3) the only flagged value
is 0, which lies below the mean, yet the run turns it into 27 = 15 + 3·4 —
the upper bound (above every original value) — where the spec demands the
lower bound 3 = 15 − 3·4.  The sibling implementation in
`apply_ai_recommendations` does send the same below-mean value to the lower
bound, as the claim states. -/
theorem c1_clean_dataset_caps_low_outlier_to_upper_bound :
    okVal ((clean_dataset c1df c1opts).map fun p => colValues p.1 0) =
      some (List.replicate 15 (Cell.num 16) ++ [Cell.num 27]) ∧
    capZscoreAI (List.replicate 15 (Cell.num 16) ++ [Cell.num 0]) =
      List.replicate 15 (Cell.num 16) ++ [Cell.num 3] ∧
    (27 : ℚ) = 15 + 3 * 4 ∧ (3 : ℚ) = 15 - 3 * 4 ∧ (0 : ℚ) < 15 := by
  refine ⟨by with_unfolding_all decide, by with_unfolding_all decide, by norm_num,
    by norm_num, by norm_num⟩

/-- C3 (counterexample): IQR capping with multiplier 3/2 on `[0, 1, 1, 1]` is
not idempotent — the second application recomputes the fences from the capped
data, flags the previously capped value again, and moves it further. -/
theorem c3_cap_twice_differs :
    capIQR (3 / 2) (capIQR (3 / 2) c3cells) ≠ capIQR (3 / 2) c3cells ∧
    (iqrFlags (3 / 2) (capIQR (3 / 2) c3cells)).count true = 1 := by
  with_unfolding_all decide

/-- C5 (code bug): `handle_missing_values` with method `mode` on an all-missing
column indexes `mode()[0]` on an empty mode series, so `clean_dataset` aborts
with a `KeyError` instead of the specified no-op, while
`apply_ai_recommendations` guards the empty mode and leaves the column
untouched without error. -/
theorem c5_mode_on_all_missing_column_raises :
    errVal (clean_dataset c5df c5opts) = some "KeyError: 0" ∧
    errVal (handle_missing_values [Cell.na, Cell.na] "mode") = some "KeyError: 0" ∧
    okVal ((apply_ai_recommendations c5df c5recs).map fun p =>
      (colValues p.1 0, p.2.final_rows)) = some ([Cell.na, Cell.na], 2) := by
  refine ⟨by with_unfolding_all decide, by decide, by with_unfolding_all decide⟩

/-- C6 (counterexample): on `[1, missing, 1]` with mean imputation and
duplicate removal requested, `clean_dataset` reports 2 duplicates removed and
ends with 1 row, because mean-filling ran first and manufactured a duplicate;
running the claimed order (duplicates first, on the untouched dataset, which
holds exactly 1 exact duplicate) removes 1 and ends with 2 rows. -/
theorem c6_duplicate_removal_not_first_in_clean_dataset :
    okVal ((clean_dataset c6df c6opts).map fun p =>
      (p.2.duplicates_removed, p.2.final_rows)) = some (2, 1) ∧
    okVal ((clean_dataset_spec_order c6df c6opts).map fun p =>
      (p.2.duplicates_removed, p.2.final_rows)) = some (1, 2) ∧
    potential_duplicates c6df = 1 := by
  refine ⟨by with_unfolding_all decide, by with_unfolding_all decide, by decide⟩

/-- C7 (counterexample): on a dataset whose column `a` is all-missing numeric
with `mean` recommended and whose column `b = [1,2,3]` has z-score capping
recommended, the run appends exactly one audit entry — a mean-fill entry
claiming `rows_affected = 3` although no cell changed (the fill value is
`NaN`) — and appends no entry at all for the outlier sub-step it performed on
`b`, whose flag count was zero. -/
theorem c7_audit_entries_mismatch :
    okVal ((apply_ai_recommendations c7df c7recs).map fun p =>
        (p.2.audit_log, colValues p.1 0, p.2.outliers_handled)) =
      some ([⟨"fill_missing_values", some "a", 3⟩], [Cell.na, Cell.na, Cell.na],
        [("b", ⟨"zscore", "cap", none, 0⟩)]) ∧ (3 : Nat) ≠ 0 := by
  refine ⟨by with_unfolding_all decide, by decide⟩

/-- C8 (counterexample): the fallback duplicate scorer matches the substring
`mail` (so `mailbox` scores 4) where the claim's token list gives 0, and gives
a uniqueness ratio of 0.9 only +3 (the `+4` branch of the if/elif chain is
shadowed by the 0.5–1.0 branch) where the claim's buckets give +4. -/
theorem c8_scoring_differs_from_claim :
    column_score "mailbox" (3 / 10) = 4 ∧ column_score_spec "mailbox" (3 / 10) = 0 ∧
    column_score "x" (9 / 10) = 3 ∧ column_score_spec "x" (9 / 10) = 4 := by
  refine ⟨by with_unfolding_all decide, by with_unfolding_all decide,
    by with_unfolding_all decide, by with_unfolding_all decide⟩

theorem heap_set_append (h : List Dataset) (x y : Dataset) :
    (h ++ [x]).set h.length y = h ++ [y] := by
  induction h with
  | nil => rfl
  | cons a h ih => simp [ih]

/-- C9: both cleaning entry points follow the copy-on-write discipline: the
caller's dataset object (and every other pre-existing object) is unchanged by
the run, and the returned cleaned dataset lives at a fresh address, distinct
from every address that existed before the call. -/
theorem c9_caller_dataset_unmodified :
    (∀ heap a options, heapPreservedCD heap (clean_dataset_proc heap a options)) ∧
    (∀ heap a recs, heapPreservedAI heap (apply_ai_proc heap a recs)) := by
  constructor
  · intro heap a options
    unfold clean_dataset_proc
    cases hcd : clean_dataset (heap.getD a ⟨[], []⟩) options with
    | error e => simp only [hcd, heapPreservedCD]
    | ok p =>
      obtain ⟨out, rep⟩ := p
      simp only [hcd, heapPreservedCD, heapWrite]
      rw [heap_set_append]
      exact ⟨List.take_left heap [out], trivial⟩
  · intro heap a recs
    unfold apply_ai_proc
    cases hcd : apply_ai_recommendations (heap.getD a ⟨[], []⟩) recs with
    | error e => simp only [hcd, heapPreservedAI]
    | ok p =>
      obtain ⟨out, rep⟩ := p
      simp only [hcd, heapPreservedAI, heapWrite]
      rw [heap_set_append]
      exact ⟨List.take_left heap [out], trivial⟩

theorem setCol_rows_le (d : Dataset) (j : Nat) (vs : List Cell) :
    (setCol d j vs).rows.length ≤ d.rows.length := by
  simp only [setCol, List.length_map, List.length_zip]
  omega

theorem setCol_cols (d : Dataset) (j : Nat) (vs : List Cell) :
    (setCol d j vs).cols = d.cols := rfl

theorem dropNaRows_rows_le (d : Dataset) (j : Nat) :
    (dropNaRows d j).rows.length ≤ d.rows.length :=
  List.length_filter_le _ _

theorem filterMask_length_le (rows : List (List Cell)) (keep : List Bool) :
    (filterMask rows keep).length ≤ rows.length := by
  induction rows generalizing keep with
  | nil => cases keep <;> simp [filterMask]
  | cons r rs ih =>
    cases keep with
    | nil => simp [filterMask]
    | cons k ks =>
      unfold filterMask
      cases k with
      | true => simpa using ih ks
      | false =>
        simp only [Bool.false_eq_true, if_false]
        exact Nat.le_succ_of_le (ih ks)

theorem dedupRowsAux_length_le (subset : Option (List Nat)) (rows : List (List Cell)) :
    ∀ seen, (dedupRowsAux subset seen rows).length ≤ rows.length := by
  induction rows with
  | nil => intro seen; simp [dedupRowsAux]
  | cons r rs ih =>
    intro seen
    unfold dedupRowsAux
    by_cases h : keyOf subset r ∈ seen
    · simp only [h, if_true]
      exact Nat.le_succ_of_le (ih seen)
    · simp only [h, if_false]
      simpa using ih (keyOf subset r :: seen)

theorem dedupRows_length_le (subset : Option (List Nat)) (rows : List (List Cell)) :
    (dedupRows subset rows).length ≤ rows.length :=
  dedupRowsAux_length_le subset rows []

theorem foldSteps_inv {σ α ε : Type} {R : σ → σ → Prop} (hrefl : ∀ s, R s s)
    (htrans : ∀ a b c, R a b → R b c → R a c)
    {f : σ → α → Except ε σ} (hf : ∀ s x s', f s x = Except.ok s' → R s' s) :
    ∀ (l : List α) (s s' : σ), foldSteps f s l = Except.ok s' → R s' s := by
  intro l
  induction l with
  | nil =>
    intro s s' h
    unfold foldSteps at h
    cases h
    exact hrefl s
  | cons x xs ih =>
    intro s s' h
    unfold foldSteps at h
    cases hfx : f s x with
    | error e => rw [hfx] at h; cases h
    | ok s1 =>
      rw [hfx] at h
      exact htrans _ _ _ (ih s1 s' h) (hf s x s1 hfx)

theorem foldl_inv {σ α : Type} {R : σ → σ → Prop} (hrefl : ∀ s, R s s)
    (htrans : ∀ a b c, R a b → R b c → R a c)
    {f : σ → α → σ} (hf : ∀ s x, R (f s x) s) :
    ∀ (l : List α) (s : σ), R (l.foldl f s) s := by
  intro l
  induction l with
  | nil => intro s; exact hrefl s
  | cons x xs ih =>
    intro s
    exact htrans _ _ _ (ih (f s x)) (hf s x)

theorem missingStepCD_shrinks (options : CleanOptions) (s : Dataset × List (String × String))
    (column : String) (s' : Dataset × List (String × String))
    (h : missingStepCD options s column = Except.ok s') :
    s'.1.rows.length ≤ s.1.rows.length ∧ s'.1.cols = s.1.cols := by
  unfold missingStepCD at h
  cases hl : options.missing_values.lookup column with
  | none =>
    rw [hl] at h
    cases h
    exact ⟨le_refl _, rfl⟩
  | some method =>
    rw [hl] at h
    dsimp only at h
    split at h
    · cases h
      exact ⟨dropNaRows_rows_le _ _, rfl⟩
    · split at h
      · split at h
        · exact Except.noConfusion h
        · cases h
          exact ⟨setCol_rows_le _ _ _, rfl⟩
      · cases h
        exact ⟨le_refl _, rfl⟩

theorem outlierStepCD_shrinks (options : CleanOptions)
    (s : Dataset × List (String × OutlierReport)) (column : String) :
    (outlierStepCD options s column).1.rows.length ≤ s.1.rows.length ∧
    (outlierStepCD options s column).1.cols = s.1.cols := by
  unfold outlierStepCD
  cases options.outliers.lookup column with
  | none => exact ⟨le_refl _, rfl⟩
  | some o =>
    dsimp only
    split
    · exact ⟨le_refl _, rfl⟩
    · constructor
      · split
        · exact filterMask_length_le _ _
        · split
          · split
            · exact setCol_rows_le _ _ _
            · exact setCol_rows_le _ _ _
          · exact le_refl _
      · split
        · rfl
        · split
          · split
            · rfl
            · rfl
          · rfl

theorem aiMissing_shrinks (s : AIState) (column method : String) :
    (aiMissing s column method).data.rows.length ≤ s.data.rows.length ∧
    (aiMissing s column method).data.cols = s.data.cols := by
  unfold aiMissing
  split
  · exact ⟨le_refl _, rfl⟩
  · dsimp only
    split
    · exact ⟨dropNaRows_rows_le _ _, rfl⟩
    · split
      · cases meanQ (colValues s.data ((colIdx s.data column).getD 0)) with
        | none => exact ⟨le_refl _, rfl⟩
        | some v => exact ⟨setCol_rows_le _ _ _, rfl⟩
      · split
        · cases quantileQ (1 / 2) (colValues s.data ((colIdx s.data column).getD 0)) with
          | none => exact ⟨le_refl _, rfl⟩
          | some v => exact ⟨setCol_rows_le _ _ _, rfl⟩
        · split
          · cases modeCells (colValues s.data ((colIdx s.data column).getD 0)) with
            | nil => exact ⟨le_refl _, rfl⟩
            | cons v vs => exact ⟨setCol_rows_le _ _ _, rfl⟩
          · exact ⟨le_refl _, rfl⟩

theorem aiOutliers_shrinks (s : AIState) (column method action : String) :
    (aiOutliers s column method action).data.rows.length ≤ s.data.rows.length ∧
    (aiOutliers s column method action).data.cols = s.data.cols := by
  unfold aiOutliers
  dsimp only
  split
  · exact ⟨le_refl _, rfl⟩
  · split <;>
    [skip; skip] <;>
    · split
      · exact ⟨filterMask_length_le _ _, rfl⟩
      · split
        · exact ⟨setCol_rows_le _ _ _, rfl⟩
        · exact ⟨le_refl _, rfl⟩

theorem transformPricePos_shrinks (s : AIState) (column : String) (s' : AIState)
    (h : transformPricePos s column = Except.ok s') :
    s'.data.rows.length ≤ s.data.rows.length ∧ s'.data.cols = s.data.cols := by
  unfold transformPricePos at h
  dsimp only at h
  split at h
  · exact Except.noConfusion h
  · split at h
    · cases h; exact ⟨le_refl _, rfl⟩
    · split at h
      · cases h; exact ⟨setCol_rows_le _ _ _, rfl⟩
      · cases h; exact ⟨le_refl _, rfl⟩

theorem transformAllPos_shrinks (s : AIState) (column : String) (s' : AIState)
    (h : transformAllPos s column = Except.ok s') :
    s'.data.rows.length ≤ s.data.rows.length ∧ s'.data.cols = s.data.cols := by
  unfold transformAllPos at h
  dsimp only at h
  split at h
  · exact Except.noConfusion h
  · split at h
    · cases h; exact ⟨setCol_rows_le _ _ _, rfl⟩
    · cases h; exact ⟨le_refl _, rfl⟩

theorem transformRound_shrinks (s : AIState) (column : String) (s' : AIState)
    (h : transformRound s column = Except.ok s') :
    s'.data.rows.length ≤ s.data.rows.length ∧ s'.data.cols = s.data.cols := by
  unfold transformRound at h
  dsimp only at h
  split at h
  · exact Except.noConfusion h
  · cases h; exact ⟨setCol_rows_le _ _ _, rfl⟩

theorem transformToInt_shrinks (s : AIState) (column : String) :
    (transformToInt s column).data.rows.length ≤ s.data.rows.length ∧
    (transformToInt s column).data.cols = s.data.cols := by
  unfold transformToInt
  dsimp only
  split
  · exact ⟨le_refl _, rfl⟩
  · exact ⟨setCol_rows_le _ _ _, rfl⟩

theorem aiTransforms_shrinks (s : AIState) (column : String) (ts : List String) (s' : AIState)
    (h : aiTransforms s column ts = Except.ok s') :
    s'.data.rows.length ≤ s.data.rows.length ∧ s'.data.cols = s.data.cols := by
  unfold aiTransforms at h
  split at h
  · cases h
    exact ⟨le_refl _, rfl⟩
  · cases h1 : (if ts.contains "Ensure all prices are positive"
        then transformPricePos s column else Except.ok s) with
    | error e => rw [h1] at h; dsimp only at h; exact Except.noConfusion h
    | ok s1 =>
      rw [h1] at h
      dsimp only at h
      have hs1 : s1.data.rows.length ≤ s.data.rows.length ∧ s1.data.cols = s.data.cols := by
        split at h1
        · exact transformPricePos_shrinks _ _ _ h1
        · cases h1; exact ⟨le_refl _, rfl⟩
      cases h2 : (if ts.contains "Ensure all values are positive"
          then transformAllPos s1 column else Except.ok s1) with
      | error e => rw [h2] at h; dsimp only at h; exact Except.noConfusion h
      | ok s2 =>
        rw [h2] at h
        dsimp only at h
        have hs2 : s2.data.rows.length ≤ s1.data.rows.length ∧ s2.data.cols = s1.data.cols := by
          split at h2
          · exact transformAllPos_shrinks _ _ _ h2
          · cases h2; exact ⟨le_refl _, rfl⟩
        cases h3 : (if ts.contains "Round to standard currency precision (2 decimal places)"
            then transformRound s2 column else Except.ok s2) with
        | error e => rw [h3] at h; dsimp only at h; exact Except.noConfusion h
        | ok s3 =>
          rw [h3] at h
          dsimp only at h
          have hs3 : s3.data.rows.length ≤ s2.data.rows.length ∧ s3.data.cols = s2.data.cols := by
            split at h3
            · exact transformRound_shrinks _ _ _ h3
            · cases h3; exact ⟨le_refl _, rfl⟩
          cases h
          have hs4 : (if ts.contains "Convert to integer values"
              then transformToInt s3 column else s3).data.rows.length ≤ s3.data.rows.length ∧
              (if ts.contains "Convert to integer values"
              then transformToInt s3 column else s3).data.cols = s3.data.cols := by
            split
            · exact transformToInt_shrinks _ _
            · exact ⟨le_refl _, rfl⟩
          exact ⟨le_trans hs4.1 (le_trans hs3.1 (le_trans hs2.1 hs1.1)),
            ((hs4.2.trans hs3.2).trans hs2.2).trans hs1.2⟩

theorem aiColumnStep_shrinks (s : AIState) (rec : DataCleaningRecommendation) (s' : AIState)
    (h : aiColumnStep s rec = Except.ok s') :
    s'.data.rows.length ≤ s.data.rows.length ∧ s'.data.cols = s.data.cols := by
  unfold aiColumnStep at h
  split at h
  · cases h
    exact ⟨le_refl _, rfl⟩
  · have h1 := aiMissing_shrinks s rec.column_name rec.missing_method
    have h2 := aiOutliers_shrinks (aiMissing s rec.column_name rec.missing_method)
      rec.column_name rec.outlier_method rec.outlier_action
    have h3 := aiTransforms_shrinks _ _ _ _ h
    exact ⟨le_trans h3.1 (le_trans h2.1 h1.1), (h3.2.trans h2.2).trans h1.2⟩

theorem aiDedupData_shrinks (d : Dataset) :
    (aiDedupData d).rows.length ≤ d.rows.length ∧ (aiDedupData d).cols = d.cols := by
  unfold aiDedupData
  cases duplicate_subset d with
  | none => exact ⟨dedupRows_length_le _ _, rfl⟩
  | some names => exact ⟨dedupRows_length_le _ _, rfl⟩

theorem aiFold_shrinks (recsL : List DataCleaningRecommendation) (s0 s : AIState)
    (h : foldSteps aiColumnStep s0 recsL = Except.ok s) :
    s.data.rows.length ≤ s0.data.rows.length ∧ s.data.cols = s0.data.cols :=
  foldSteps_inv
    (R := fun a b : AIState =>
      a.data.rows.length ≤ b.data.rows.length ∧ a.data.cols = b.data.cols)
    (fun _ => ⟨le_refl _, rfl⟩)
    (fun _ _ _ hab hbc => ⟨le_trans hab.1 hbc.1, hab.2.trans hbc.2⟩)
    (fun s x s' hx => aiColumnStep_shrinks s x s' hx) recsL s0 s h

/-- C2: for every input dataset and every options/recommendation set, a
completed cleaning run — through either `clean_dataset` or
`apply_ai_recommendations` — reports `final_rows ≤ original_rows` and
`final_columns = original_columns`: no operation adds rows, and no operation
adds or drops a column. -/
theorem c2_row_monotonicity_and_column_preservation :
    (∀ df options, RowColInv (clean_dataset df options)) ∧
    (∀ df recs, RowColInvAI (apply_ai_recommendations df recs)) := by
  constructor
  · intro df options
    unfold clean_dataset
    cases hmv : mvPhaseCD options df with
    | error e => simp only [hmv, RowColInv]
    | ok p =>
      obtain ⟨d1, mvh⟩ := p
      simp only [hmv]
      have h1 : d1.rows.length ≤ df.rows.length ∧ d1.cols = df.cols := by
        unfold mvPhaseCD at hmv
        exact foldSteps_inv
          (R := fun p q : Dataset × List (String × String) =>
            p.1.rows.length ≤ q.1.rows.length ∧ p.1.cols = q.1.cols)
          (fun s => ⟨le_refl _, rfl⟩)
          (fun a b c hab hbc => ⟨le_trans hab.1 hbc.1, hab.2.trans hbc.2⟩)
          (fun s x s' hx => missingStepCD_shrinks options s x s' hx)
          df.cols (df, []) (d1, mvh) hmv
      have hgen : ∀ d2 : Dataset,
          ((numericCols d2).foldl (outlierStepCD options)
            (d2, ([] : List (String × OutlierReport)))).1.rows.length ≤ d2.rows.length ∧
          ((numericCols d2).foldl (outlierStepCD options)
            (d2, ([] : List (String × OutlierReport)))).1.cols = d2.cols := by
        intro d2
        exact foldl_inv
          (R := fun p q : Dataset × List (String × OutlierReport) =>
            p.1.rows.length ≤ q.1.rows.length ∧ p.1.cols = q.1.cols)
          (fun s => ⟨le_refl _, rfl⟩)
          (fun a b c hab hbc => ⟨le_trans hab.1 hbc.1, hab.2.trans hbc.2⟩)
          (fun s x => outlierStepCD_shrinks options s x)
          (numericCols d2) (d2, [])
      simp only [RowColInv]
      constructor
      · split
        · exact le_trans (le_trans (hgen _).1 (dedupRows_length_le none d1.rows)) h1.1
        · exact le_trans (hgen d1).1 h1.1
      · split
        · rw [(hgen _).2]
          simp [h1.2]
        · rw [(hgen d1).2, h1.2]
  · intro df recs
    unfold apply_ai_recommendations
    dsimp only
    split
    · simp only [RowColInvAI]
    · rename_i s hf
      simp only [RowColInvAI]
      have hs := aiFold_shrinks _ _ _ hf
      have hd1 : (if recs.duplicate_removal = true then aiDedupData df else df).rows.length ≤
            df.rows.length ∧
          (if recs.duplicate_removal = true then aiDedupData df else df).cols = df.cols := by
        split
        · exact aiDedupData_shrinks df
        · exact ⟨le_refl _, rfl⟩
      constructor
      · exact le_trans hs.1 hd1.1
      · rw [hs.2]
        · show (if recs.duplicate_removal = true then aiDedupData df else df).cols.length =
            df.cols.length
          rw [hd1.2]

/-- C6 (amended): `apply_ai_recommendations` removes duplicates first, on the
full untouched dataset — its reported `duplicates_removed` is the dedup delta
of the original input — and only then runs the per-column steps (missing
values, then outliers, then transformations); `clean_dataset`, by contrast,
resolves missing values first (all columns, in dataset column order) and its
duplicate removal operates on the missing-resolved dataset, whose dedup delta
it reports. -/
theorem c6_amended_order (df : Dataset) (options : CleanOptions)
    (recs : DatasetRecommendation) :
    (match apply_ai_recommendations df recs with
      | Except.ok p => p.2.duplicates_removed =
          (if recs.duplicate_removal then df.rows.length - (aiDedupData df).rows.length else 0)
      | Except.error _ => True) ∧
    (match clean_dataset df options, mvPhaseCD options df with
      | Except.ok p, Except.ok q => p.2.duplicates_removed =
          (if options.remove_duplicates
           then q.1.rows.length - (dedupRows none q.1.rows).length else 0)
      | _, _ => True) := by
  constructor
  · cases hdup : recs.duplicate_removal with
    | true =>
      unfold apply_ai_recommendations
      simp only [hdup, if_true]
      split
      · rename_i p heq
        split at heq
        · exact Except.noConfusion heq
        · cases heq; rfl
      · trivial
    | false =>
      unfold apply_ai_recommendations
      simp only [hdup, Bool.false_eq_true, if_false]
      split
      · rename_i p heq
        split at heq
        · exact Except.noConfusion heq
        · cases heq; simp
      · trivial
  · cases hmv : mvPhaseCD options df with
    | error e =>
      unfold clean_dataset
      rw [hmv]
      dsimp only
    | ok q =>
      obtain ⟨d1, mvh⟩ := q
      cases hdup : options.remove_duplicates with
      | true =>
        unfold clean_dataset
        rw [hmv]
        simp only [hdup, if_true]
      | false =>
        unfold clean_dataset
        rw [hmv]
        simp only [hdup, Bool.false_eq_true, if_false]
        simp

theorem aiMissing_audit_append (s : AIState) (column method : String) :
    ∃ l, (aiMissing s column method).audit = s.audit ++ l ∧
      ∀ e ∈ l, e.operation ≠ "remove_duplicates" := by
  unfold aiMissing
  split
  · exact ⟨[], by simp, by simp⟩
  · dsimp only
    split
    · refine ⟨[_], rfl, ?_⟩
      intro e he
      rw [List.mem_singleton] at he
      subst he
      dsimp only
      decide
    · split
      · refine ⟨[_], rfl, ?_⟩
        intro e he
        rw [List.mem_singleton] at he
        subst he
        dsimp only
        decide
      · split
        · refine ⟨[_], rfl, ?_⟩
          intro e he
          rw [List.mem_singleton] at he
          subst he
          dsimp only
          decide
        · split
          · split
            · exact ⟨[], by simp, by simp⟩
            · refine ⟨[_], rfl, ?_⟩
              intro e he
              rw [List.mem_singleton] at he
              subst he
              dsimp only
              decide
          · exact ⟨[], by simp, by simp⟩

theorem aiOutliers_audit_append (s : AIState) (column method action : String) :
    ∃ l, (aiOutliers s column method action).audit = s.audit ++ l ∧
      ∀ e ∈ l, e.operation ≠ "remove_duplicates" := by
  unfold aiOutliers
  dsimp only
  split
  · exact ⟨[], by simp, by simp⟩
  · split <;>
    [skip; skip] <;>
    · split
      · refine ⟨[_], rfl, ?_⟩
        intro e he
        rw [List.mem_singleton] at he
        subst he
        dsimp only
        decide
      · split
        · refine ⟨[_], rfl, ?_⟩
          intro e he
          rw [List.mem_singleton] at he
          subst he
          dsimp only
          decide
        · exact ⟨[], by simp, by simp⟩

theorem transformPricePos_audit (s : AIState) (column : String) (s' : AIState)
    (h : transformPricePos s column = Except.ok s') :
    ∃ l, s'.audit = s.audit ++ l ∧ ∀ e ∈ l, e.operation ≠ "remove_duplicates" := by
  unfold transformPricePos at h
  dsimp only at h
  split at h
  · exact Except.noConfusion h
  · split at h
    · cases h; exact ⟨[], by simp, by simp⟩
    · split at h
      · cases h
        refine ⟨[_], rfl, ?_⟩
        intro e he
        rw [List.mem_singleton] at he
        subst he
        dsimp only
        decide
      · cases h; exact ⟨[], by simp, by simp⟩

theorem transformAllPos_audit (s : AIState) (column : String) (s' : AIState)
    (h : transformAllPos s column = Except.ok s') :
    ∃ l, s'.audit = s.audit ++ l ∧ ∀ e ∈ l, e.operation ≠ "remove_duplicates" := by
  unfold transformAllPos at h
  dsimp only at h
  split at h
  · exact Except.noConfusion h
  · split at h
    · cases h
      refine ⟨[_], rfl, ?_⟩
      intro e he
      rw [List.mem_singleton] at he
      subst he
      dsimp only
      decide
    · cases h; exact ⟨[], by simp, by simp⟩

theorem transformRound_audit (s : AIState) (column : String) (s' : AIState)
    (h : transformRound s column = Except.ok s') :
    ∃ l, s'.audit = s.audit ++ l ∧ ∀ e ∈ l, e.operation ≠ "remove_duplicates" := by
  unfold transformRound at h
  dsimp only at h
  split at h
  · exact Except.noConfusion h
  · cases h
    refine ⟨[_], rfl, ?_⟩
    intro e he
    rw [List.mem_singleton] at he
    subst he
    dsimp only
    decide

theorem transformToInt_audit (s : AIState) (column : String) :
    ∃ l, (transformToInt s column).audit = s.audit ++ l ∧
      ∀ e ∈ l, e.operation ≠ "remove_duplicates" := by
  unfold transformToInt
  dsimp only
  split
  · exact ⟨[], by simp, by simp⟩
  · refine ⟨[_], rfl, ?_⟩
    intro e he
    rw [List.mem_singleton] at he
    subst he
    dsimp only
    decide

theorem aiTransforms_audit (s : AIState) (column : String) (ts : List String) (s' : AIState)
    (h : aiTransforms s column ts = Except.ok s') :
    ∃ l, s'.audit = s.audit ++ l ∧ ∀ e ∈ l, e.operation ≠ "remove_duplicates" := by
  unfold aiTransforms at h
  split at h
  · cases h
    exact ⟨[], by simp, by simp⟩
  · cases h1 : (if ts.contains "Ensure all prices are positive"
        then transformPricePos s column else Except.ok s) with
    | error e => rw [h1] at h; dsimp only at h; exact Except.noConfusion h
    | ok s1 =>
      rw [h1] at h
      dsimp only at h
      have hs1 : ∃ l, s1.audit = s.audit ++ l ∧ ∀ e ∈ l, e.operation ≠ "remove_duplicates" := by
        split at h1
        · exact transformPricePos_audit _ _ _ h1
        · cases h1; exact ⟨[], by simp, by simp⟩
      cases h2 : (if ts.contains "Ensure all values are positive"
          then transformAllPos s1 column else Except.ok s1) with
      | error e => rw [h2] at h; dsimp only at h; exact Except.noConfusion h
      | ok s2 =>
        rw [h2] at h
        dsimp only at h
        have hs2 : ∃ l, s2.audit = s1.audit ++ l ∧
            ∀ e ∈ l, e.operation ≠ "remove_duplicates" := by
          split at h2
          · exact transformAllPos_audit _ _ _ h2
          · cases h2; exact ⟨[], by simp, by simp⟩
        cases h3 : (if ts.contains "Round to standard currency precision (2 decimal places)"
            then transformRound s2 column else Except.ok s2) with
        | error e => rw [h3] at h; dsimp only at h; exact Except.noConfusion h
        | ok s3 =>
          rw [h3] at h
          dsimp only at h
          have hs3 : ∃ l, s3.audit = s2.audit ++ l ∧
              ∀ e ∈ l, e.operation ≠ "remove_duplicates" := by
            split at h3
            · exact transformRound_audit _ _ _ h3
            · cases h3; exact ⟨[], by simp, by simp⟩
          cases h
          have hs4 : ∃ l, (if ts.contains "Convert to integer values"
              then transformToInt s3 column else s3).audit = s3.audit ++ l ∧
              ∀ e ∈ l, e.operation ≠ "remove_duplicates" := by
            split
            · exact transformToInt_audit _ _
            · exact ⟨[], by simp, by simp⟩
          obtain ⟨l1, e1, p1⟩ := hs1
          obtain ⟨l2, e2, p2⟩ := hs2
          obtain ⟨l3, e3, p3⟩ := hs3
          obtain ⟨l4, e4, p4⟩ := hs4
          refine ⟨l1 ++ l2 ++ l3 ++ l4, ?_, ?_⟩
          · rw [e4, e3, e2, e1]
            simp [List.append_assoc]
          · intro e he
            simp only [List.mem_append] at he
            rcases he with ((he | he) | he) | he
            · exact p1 e he
            · exact p2 e he
            · exact p3 e he
            · exact p4 e he

theorem aiColumnStep_audit (s : AIState) (rec : DataCleaningRecommendation) (s' : AIState)
    (h : aiColumnStep s rec = Except.ok s') :
    ∃ l, s'.audit = s.audit ++ l ∧ ∀ e ∈ l, e.operation ≠ "remove_duplicates" := by
  unfold aiColumnStep at h
  split at h
  · cases h
    exact ⟨[], by simp, by simp⟩
  · obtain ⟨l1, e1, p1⟩ := aiMissing_audit_append s rec.column_name rec.missing_method
    obtain ⟨l2, e2, p2⟩ := aiOutliers_audit_append
      (aiMissing s rec.column_name rec.missing_method) rec.column_name
      rec.outlier_method rec.outlier_action
    obtain ⟨l3, e3, p3⟩ := aiTransforms_audit _ _ _ _ h
    refine ⟨l1 ++ l2 ++ l3, ?_, ?_⟩
    · rw [e3, e2, e1]
      simp [List.append_assoc]
    · intro e he
      simp only [List.mem_append] at he
      rcases he with (he | he) | he
      · exact p1 e he
      · exact p2 e he
      · exact p3 e he

theorem aiFold_audit (recsL : List DataCleaningRecommendation) (s0 s : AIState)
    (h : foldSteps aiColumnStep s0 recsL = Except.ok s) :
    ∃ l, s.audit = s0.audit ++ l ∧ ∀ e ∈ l, e.operation ≠ "remove_duplicates" := by
  refine foldSteps_inv
    (R := fun a b : AIState => ∃ l, a.audit = b.audit ++ l ∧
      ∀ e ∈ l, e.operation ≠ "remove_duplicates")
    (fun _ => ⟨[], by simp, by simp⟩) ?_ (fun s x s' hx => aiColumnStep_audit s x s' hx)
    recsL s0 s h
  rintro a b c ⟨la, ea, pa⟩ ⟨lb, eb, pb⟩
  refine ⟨lb ++ la, ?_, ?_⟩
  · rw [ea, eb]
    simp [List.append_assoc]
  · intro e he
    simp only [List.mem_append] at he
    rcases he with he | he
    · exact pb e he
    · exact pa e he

/-- C7 (amended): the audit discipline the code implements: duplicate removal
(when recommended) contributes exactly one entry — the first in the log —
whose `rows_affected` equals the reported `duplicates_removed`, even when
zero; a `drop` missing-value step always appends one entry recording the
removed-row delta; a `mean` fill on a numeric column always appends one entry
recording the column's prior missing count, even when the computed mean is
itself missing and no cell changes; every other sub-step appends at most one
entry and leaves the dataset alone when it appends none; and outlier handling
appends its entry only when at least one value is flagged — with a zero flag
count no entry is appended at all — recording the flag count for `cap`. -/
theorem c7_amended_audit :
    (∀ df recs, match apply_ai_recommendations df recs with
      | Except.ok p =>
          p.2.audit_log.countP (fun e => e.operation == "remove_duplicates") =
            (if recs.duplicate_removal then 1 else 0) ∧
          (if recs.duplicate_removal
           then p.2.audit_log.take 1 =
             [⟨"remove_duplicates", none, p.2.duplicates_removed⟩]
           else True)
      | Except.error _ => True) ∧
    (∀ s column method, ((aiMissing s column method).audit = s.audit ∧
        (aiMissing s column method).data = s.data) ∨
      ∃ e, (aiMissing s column method).audit = s.audit ++ [e]) ∧
    (∀ s column, (aiMissing s column "drop").audit = s.audit ++
      [⟨"drop_missing_values", some column,
        s.data.rows.length - (aiMissing s column "drop").data.rows.length⟩]) ∧
    (∀ s column, if hasStr (colValues s.data ((colIdx s.data column).getD 0)) then True
      else (aiMissing s column "mean").audit = s.audit ++
        [⟨"fill_missing_values", some column,
          naCount (colValues s.data ((colIdx s.data column).getD 0))⟩]) ∧
    (∀ s column method action, ((aiOutliers s column method action).audit = s.audit ∧
        (aiOutliers s column method action).data = s.data) ∨
      ∃ e, (aiOutliers s column method action).audit = s.audit ++ [e]) ∧
    (∀ s column method action,
      if (if method == "zscore"
            then zscoreFlags 3 (colValues s.data ((colIdx s.data column).getD 0))
            else iqrFlags (3 / 2) (colValues s.data ((colIdx s.data column).getD 0))).count
          true == 0
      then (aiOutliers s column method action).audit = s.audit ∧
        (aiOutliers s column method action).data = s.data
      else True) ∧
    (∀ s column method action,
      if !(method == "none" || hasStr (colValues s.data ((colIdx s.data column).getD 0))) &&
          (action == "cap") &&
          decide (0 < (if method == "zscore"
            then zscoreFlags 3 (colValues s.data ((colIdx s.data column).getD 0))
            else iqrFlags (3 / 2) (colValues s.data ((colIdx s.data column).getD 0))).count true)
      then (aiOutliers s column method action).audit = s.audit ++
        [⟨"cap_outliers", some column,
          (if method == "zscore"
            then zscoreFlags 3 (colValues s.data ((colIdx s.data column).getD 0))
            else iqrFlags (3 / 2) (colValues s.data ((colIdx s.data column).getD 0))).count true⟩]
      else True) := by
  refine ⟨?_, ?_, ?_, ?_, ?_, ?_, ?_⟩
  · intro df recs
    cases hdup : recs.duplicate_removal with
    | true =>
      unfold apply_ai_recommendations
      simp only [hdup, if_true]
      split
      · rename_i p heq
        split at heq
        · exact Except.noConfusion heq
        · rename_i s hf
          cases heq
          dsimp only
          obtain ⟨L, eL, pL⟩ := aiFold_audit _ _ _ hf
          dsimp only at eL
          rw [eL]
          have h0 : List.countP (fun e => e.operation == "remove_duplicates") L = 0 := by
            rw [List.countP_eq_zero]
            intro a ha
            simpa using pL a ha
          constructor
          · rw [List.countP_append, h0]
            rfl
          · rfl
      · trivial
    | false =>
      unfold apply_ai_recommendations
      simp only [hdup, Bool.false_eq_true, if_false]
      split
      · rename_i p heq
        split at heq
        · exact Except.noConfusion heq
        · rename_i s hf
          cases heq
          dsimp only
          obtain ⟨L, eL, pL⟩ := aiFold_audit _ _ _ hf
          dsimp only at eL
          rw [eL]
          have h0 : List.countP (fun e => e.operation == "remove_duplicates") L = 0 := by
            rw [List.countP_eq_zero]
            intro a ha
            simpa using pL a ha
          refine ⟨?_, trivial⟩
          simpa using h0
      · trivial
  · intro s column method
    unfold aiMissing
    split
    · exact Or.inl ⟨rfl, rfl⟩
    · dsimp only
      split
      · exact Or.inr ⟨_, rfl⟩
      · split
        · exact Or.inr ⟨_, rfl⟩
        · split
          · exact Or.inr ⟨_, rfl⟩
          · split
            · split
              · exact Or.inl ⟨rfl, rfl⟩
              · exact Or.inr ⟨_, rfl⟩
            · exact Or.inl ⟨rfl, rfl⟩
  · intro s column
    rfl
  · intro s column
    cases hstr : hasStr (colValues s.data ((colIdx s.data column).getD 0)) with
    | true => simp [hstr]
    | false =>
      simp only [hstr, Bool.false_eq_true, if_false]
      unfold aiMissing
      simp [hstr]
  · intro s column method action
    unfold aiOutliers
    dsimp only
    split
    · exact Or.inl ⟨rfl, rfl⟩
    · split <;>
      [skip; skip] <;>
      · split
        · exact Or.inr ⟨_, rfl⟩
        · split
          · exact Or.inr ⟨_, rfl⟩
          · exact Or.inl ⟨rfl, rfl⟩
  · intro s column method action
    cases hc : ((if method == "zscore"
        then zscoreFlags 3 (colValues s.data ((colIdx s.data column).getD 0))
        else iqrFlags (3 / 2) (colValues s.data ((colIdx s.data column).getD 0))).count
          true == 0) with
    | false => simp only [hc, Bool.false_eq_true, if_false]
    | true =>
      simp only [hc, if_true]
      rw [beq_iff_eq] at hc
      unfold aiOutliers
      dsimp only
      rw [hc]
      split
      · exact ⟨rfl, rfl⟩
      · simp
  · intro s column method action
    cases hcond : (!(method == "none" ||
          hasStr (colValues s.data ((colIdx s.data column).getD 0))) &&
        (action == "cap") &&
        decide (0 < (if method == "zscore"
          then zscoreFlags 3 (colValues s.data ((colIdx s.data column).getD 0))
          else iqrFlags (3 / 2)
            (colValues s.data ((colIdx s.data column).getD 0))).count true)) with
    | false => simp only [hcond, Bool.false_eq_true, if_false]
    | true =>
      simp only [hcond, if_true]
      rw [Bool.and_eq_true, Bool.and_eq_true] at hcond
      obtain ⟨⟨hguard, hact⟩, hpos⟩ := hcond
      rw [Bool.not_eq_true'] at hguard
      rw [beq_iff_eq] at hact
      subst hact
      unfold aiOutliers
      dsimp only
      rw [hguard]
      simp only [Bool.false_eq_true, if_false]
      have hc1 : (("cap" : String) == "remove") = false := by decide
      have hc2 : (("cap" : String) == "cap") = true := by decide
      simp only [hc1, Bool.false_and, Bool.false_eq_true, if_false, hc2, Bool.true_and,
        hpos, if_true]

theorem map_fst_isEmpty (l : List (String × Nat)) :
    (l.map Prod.fst).isEmpty = l.isEmpty := by
  cases l <;> rfl

/-- C8 (amended): the fallback duplicate scorer's subset choice works as the
claim says — all columns scoring ≥ 5 when any exists, else the 1–3 top
scorers, else all columns (`none`) — but its scores differ from the claim's:
the name tokens are substring matches over id/code/key/num/number (+5),
name/user/customer/client/person (+3) and email/mail/phone/contact (+4), and
the uniqueness component of the if/elif chain awards +3 uniformly on the whole
open interval (0.5, 1.0) — a ratio above 0.8 gets +3, not +4 — with +6 only at
exactly 1.0. -/
theorem c8_amended_scoring_and_choice :
    (∀ d : Dataset, if (potential_id_columns d).isEmpty
      then duplicate_subset d = none else True) ∧
    (∀ d : Dataset, if ((potential_id_columns d).filter fun q => 5 ≤ q.2).isEmpty then True
      else duplicate_subset d =
        some (((potential_id_columns d).filter fun q => 5 ≤ q.2).map Prod.fst)) ∧
    (∀ d : Dataset, if (potential_id_columns d).isEmpty then True
      else if ((potential_id_columns d).filter fun q => 5 ≤ q.2).isEmpty
      then duplicate_subset d = some (((potential_id_columns d).take 3).map Prod.fst) ∧
        ((potential_id_columns d).take 3).map Prod.fst ≠ [] ∧
        (((potential_id_columns d).take 3).map Prod.fst).length ≤ 3
      else True) ∧
    (∀ (name : String) (u u' : ℚ), if 1 / 2 < u ∧ u < 1 ∧ 1 / 2 < u' ∧ u' < 1
      then column_score name u = column_score name u' else True) ∧
    (∀ name : String, column_score name 1 = column_score name (3 / 5) + 3) := by
  refine ⟨?_, ?_, ?_, ?_, ?_⟩
  · intro d
    cases hp : (potential_id_columns d).isEmpty with
    | true => simp only [if_true]; simp [duplicate_subset, hp]
    | false => simp [hp]
  · intro d
    cases hf : ((potential_id_columns d).filter fun q => 5 ≤ q.2).isEmpty with
    | true => simp [hf]
    | false =>
      simp only [hf, Bool.false_eq_true, if_false]
      have hp : (potential_id_columns d).isEmpty = false := by
        cases hp : (potential_id_columns d).isEmpty with
        | false => rfl
        | true =>
          rw [List.isEmpty_iff] at hp
          rw [hp] at hf
          simp at hf
      unfold duplicate_subset
      dsimp only
      rw [hp]
      simp only [Bool.false_eq_true, if_false]
      rw [map_fst_isEmpty, hf]
      simp
  · intro d
    cases hp : (potential_id_columns d).isEmpty with
    | true => simp [hp]
    | false =>
      cases hf : ((potential_id_columns d).filter fun q => 5 ≤ q.2).isEmpty with
      | false => simp [hp, hf]
      | true =>
        simp only [hp, hf, Bool.false_eq_true, if_false, if_true]
        refine ⟨?_, ?_, ?_⟩
        · unfold duplicate_subset
          dsimp only
          rw [hp]
          simp only [Bool.false_eq_true, if_false]
          rw [map_fst_isEmpty, hf]
          simp
        · cases hl : potential_id_columns d with
          | nil => rw [hl] at hp; simp at hp
          | cons x xs => simp
        · rw [List.length_map, List.length_take]
          omega
  · intro name u u'
    by_cases hc : 1 / 2 < u ∧ u < 1 ∧ 1 / 2 < u' ∧ u' < 1
    · rw [if_pos hc]
      obtain ⟨h1, h2, h3, h4⟩ := hc
      have c1 : 1 / 2 < u ∧ u < 1 := ⟨h1, h2⟩
      have c2 : 1 / 2 < u' ∧ u' < 1 := ⟨h3, h4⟩
      unfold column_score
      dsimp only
      rw [if_pos c1, if_pos c2]
    · rw [if_neg hc]
      trivial
  · intro name
    unfold column_score
    dsimp only
    norm_num

theorem sorted_getD_mono {ys : List ℚ} (hs : List.Sorted (· ≤ ·) ys) (d d' : ℚ)
    {i j : Nat} (hij : i ≤ j) (hj : j < ys.length) :
    ys.getD i d ≤ ys.getD j d' := by
  have hi : i < ys.length := lt_of_le_of_lt hij hj
  rw [List.getD_eq_getElem ys d hi, List.getD_eq_getElem ys d' hj]
  have h := hs.rel_get_of_le (a := ⟨i, hi⟩) (b := ⟨j, hj⟩) (by exact_mod_cast hij)
  simpa using h

theorem getD_le_getD_succ {ys : List ℚ} (hs : List.Sorted (· ≤ ·) ys) (d : ℚ)
    {i : Nat} (_hi : i < ys.length) :
    ys.getD i d ≤ ys.getD (i + 1) (ys.getD i d) := by
  by_cases h1 : i + 1 < ys.length
  · exact sorted_getD_mono hs d (ys.getD i d) (Nat.le_succ i) h1
  · rw [List.getD_eq_default _ _ (Nat.le_of_not_lt h1)]

theorem interp_mono (L : List ℚ) (y0 : ℚ) (hsorted : List.Sorted (· ≤ ·) L)
    (pa pb : ℚ) (hpa0 : 0 ≤ pa) (hpab : pa ≤ pb) (hpbn : pb ≤ (L.length : ℚ) - 1) :
    L.getD ⌊pa⌋.toNat y0 + (pa - (⌊pa⌋.toNat : ℚ)) *
        (L.getD (⌊pa⌋.toNat + 1) (L.getD ⌊pa⌋.toNat y0) - L.getD ⌊pa⌋.toNat y0) ≤
    L.getD ⌊pb⌋.toNat y0 + (pb - (⌊pb⌋.toNat : ℚ)) *
        (L.getD (⌊pb⌋.toNat + 1) (L.getD ⌊pb⌋.toNat y0) - L.getD ⌊pb⌋.toNat y0) := by
  have hpb0 : 0 ≤ pb := le_trans hpa0 hpab
  have hfa0 : (0 : ℤ) ≤ ⌊pa⌋ := Int.floor_nonneg.mpr hpa0
  have hfb0 : (0 : ℤ) ≤ ⌊pb⌋ := Int.floor_nonneg.mpr hpb0
  have hiaZ : (⌊pa⌋.toNat : ℤ) = ⌊pa⌋ := Int.toNat_of_nonneg hfa0
  have hibZ : (⌊pb⌋.toNat : ℤ) = ⌊pb⌋ := Int.toNat_of_nonneg hfb0
  have hiaQ : ((⌊pa⌋.toNat : ℕ) : ℚ) = ((⌊pa⌋ : ℤ) : ℚ) := by exact_mod_cast hiaZ
  have hibQ : ((⌊pb⌋.toNat : ℕ) : ℚ) = ((⌊pb⌋ : ℤ) : ℚ) := by exact_mod_cast hibZ
  have hγa0 : 0 ≤ pa - (⌊pa⌋.toNat : ℚ) := by
    rw [hiaQ]
    have := Int.floor_le pa
    linarith
  have hγa1 : pa - (⌊pa⌋.toNat : ℚ) ≤ 1 := by
    rw [hiaQ]
    have := Int.lt_floor_add_one pa
    push_cast at this ⊢
    linarith
  have hγb0 : 0 ≤ pb - (⌊pb⌋.toNat : ℚ) := by
    rw [hibQ]
    have := Int.floor_le pb
    linarith
  have hL1 : 1 ≤ L.length := by
    by_contra hc
    have h0 : L.length = 0 := by omega
    rw [h0] at hpbn
    simp at hpbn
    linarith
  have hibn : ⌊pb⌋.toNat < L.length := by
    have hfb : ⌊pb⌋ ≤ (L.length : ℤ) - 1 := by
      have : ((L.length : ℚ) - 1) = (((L.length : ℤ) - 1 : ℤ) : ℚ) := by push_cast; ring
      rw [this] at hpbn
      have := Int.floor_le_floor hpbn
      rwa [Int.floor_intCast] at this
    omega
  have hiab : ⌊pa⌋.toNat ≤ ⌊pb⌋.toNat :=
    Int.toNat_le_toNat (Int.floor_le_floor hpab)
  have hian : ⌊pa⌋.toNat < L.length := lt_of_le_of_lt (Nat.lt_succ_iff.mp
    (Nat.lt_succ_of_le hiab)) hibn
  have hbaseb : L.getD ⌊pb⌋.toNat y0 ≤
      L.getD (⌊pb⌋.toNat + 1) (L.getD ⌊pb⌋.toNat y0) :=
    getD_le_getD_succ hsorted y0 hibn
  have hbasea : L.getD ⌊pa⌋.toNat y0 ≤
      L.getD (⌊pa⌋.toNat + 1) (L.getD ⌊pa⌋.toNat y0) :=
    getD_le_getD_succ hsorted y0 hian
  rcases Nat.eq_or_lt_of_le hiab with heq | hlt
  · simp only [heq] at hγa0 ⊢
    have hγab : pa - (⌊pb⌋.toNat : ℚ) ≤ pb - (⌊pb⌋.toNat : ℚ) := by linarith
    nlinarith [hbaseb, hγa0, hγab]
  · have hia1 : ⌊pa⌋.toNat + 1 ≤ ⌊pb⌋.toNat := hlt
    have h1 : L.getD ⌊pa⌋.toNat y0 + (pa - (⌊pa⌋.toNat : ℚ)) *
        (L.getD (⌊pa⌋.toNat + 1) (L.getD ⌊pa⌋.toNat y0) - L.getD ⌊pa⌋.toNat y0) ≤
        L.getD (⌊pa⌋.toNat + 1) (L.getD ⌊pa⌋.toNat y0) := by
      nlinarith [hbasea, hγa0, hγa1]
    have h2 : L.getD (⌊pa⌋.toNat + 1) (L.getD ⌊pa⌋.toNat y0) ≤ L.getD ⌊pb⌋.toNat y0 :=
      sorted_getD_mono hsorted _ _ hia1 hibn
    have h3 : L.getD ⌊pb⌋.toNat y0 ≤ L.getD ⌊pb⌋.toNat y0 + (pb - (⌊pb⌋.toNat : ℚ)) *
        (L.getD (⌊pb⌋.toNat + 1) (L.getD ⌊pb⌋.toNat y0) - L.getD ⌊pb⌋.toNat y0) := by
      nlinarith [hbaseb, hγb0]
    linarith

theorem quantileQ_mono (cells : List Cell) (a b : ℚ)
    (ha : 0 ≤ a) (hab : a ≤ b) (hb : b ≤ 1) (va vb : ℚ)
    (hva : quantileQ a cells = some va) (hvb : quantileQ b cells = some vb) :
    va ≤ vb := by
  unfold quantileQ at hva hvb
  cases hys : sortedNums cells with
  | nil =>
    rw [hys] at hva
    exact Option.noConfusion hva
  | cons y0 tl =>
    rw [hys] at hva hvb
    dsimp only at hva hvb
    rw [Option.some.injEq] at hva hvb
    subst hva
    subst hvb
    have hsorted : List.Sorted (· ≤ ·) (y0 :: tl) := by
      rw [← hys]
      exact List.sorted_insertionSort _ _
    have hn1 : (1 : ℚ) ≤ ((y0 :: tl).length : ℚ) := by
      have h : 1 ≤ (y0 :: tl).length := by simp
      exact_mod_cast h
    have h1 : 0 ≤ ((y0 :: tl).length : ℚ) - 1 := by linarith
    exact interp_mono (y0 :: tl) y0 hsorted
      (a * (((y0 :: tl).length : ℚ) - 1)) (b * (((y0 :: tl).length : ℚ) - 1))
      (mul_nonneg ha h1) (mul_le_mul_of_nonneg_right hab h1)
      (by nlinarith)

/-- C3 (amended): IQR capping is not idempotent (see the counterexample: a
re-application recomputes the fences from the mutated column and can flag a
previously capped value again); what does hold is the in-invocation guarantee
the spec's parenthesis asks for: after one application of `capIQR`, no value —
capped or untouched — still tests as an outlier against the fences computed in
that same invocation, before mutation: the second-pass flag count against
those bounds is zero. -/
theorem c3_amended_no_outliers_against_invocation_bounds (t : ℚ) (cells : List Cell)
    (lo hi : ℚ) (ht : 0 ≤ t) (hb : iqrBounds t cells = some (lo, hi)) :
    (iqrFlagsWith lo hi (capIQR t cells)).count true = 0 := by
  have hb' := hb
  unfold iqrBounds at hb
  cases hq1 : quantileQ (1 / 4) cells with
  | none => rw [hq1] at hb; exact Option.noConfusion hb
  | some q1 =>
    cases hq3 : quantileQ (3 / 4) cells with
    | none => rw [hq1, hq3] at hb; exact Option.noConfusion hb
    | some q3 =>
      rw [hq1, hq3] at hb
      dsimp only at hb
      rw [Option.some.injEq, Prod.mk.injEq] at hb
      obtain ⟨hlo, hhi⟩ := hb
      have hq13 : q1 ≤ q3 :=
        quantileQ_mono cells (1 / 4) (3 / 4) (by norm_num) (by norm_num) (by norm_num)
          q1 q3 hq1 hq3
      have htI : 0 ≤ t * (q3 - q1) := mul_nonneg ht (by linarith)
      have hlohi : lo ≤ hi := by rw [← hlo, ← hhi]; linarith
      unfold capIQR
      rw [hb']
      dsimp only
      rw [List.map_map]
      unfold iqrFlagsWith
      rw [List.map_map]
      rw [List.count_eq_zero]
      intro hmem
      rw [List.mem_map] at hmem
      obtain ⟨c, _, hc⟩ := hmem
      cases c with
      | na => simp at hc
      | str s => simp at hc
      | num v =>
        simp only [Function.comp] at hc
        by_cases h1 : v < lo
        · rw [if_pos h1] at hc
          dsimp only at hc
          rw [if_neg (not_lt.mpr hlohi)] at hc
          rw [decide_eq_true_eq] at hc
          rcases hc with hc | hc
          · exact absurd hc (lt_irrefl lo)
          · exact absurd hc (not_lt.mpr hlohi)
        · rw [if_neg h1] at hc
          dsimp only at hc
          by_cases h2 : hi < v
          · rw [if_pos h2] at hc
            rw [decide_eq_true_eq] at hc
            rcases hc with hc | hc
            · exact absurd hc (not_lt.mpr hlohi)
            · exact absurd hc (lt_irrefl hi)
          · rw [if_neg h2] at hc
            rw [decide_eq_true_eq] at hc
            rcases hc with hc | hc
            · exact absurd hc h1
            · exact absurd hc h2

theorem c3_amended_witness :
    0 ≤ (3 / 2 : ℚ) ∧ iqrBounds (3 / 2) c3cells = some (3 / 8, 11 / 8) ∧
    (iqrFlagsWith (3 / 8) (11 / 8) (capIQR (3 / 2) c3cells)).count true = 0 :=
  ⟨by norm_num, by with_unfolding_all decide,
    c3_amended_no_outliers_against_invocation_bounds (3 / 2) c3cells (3 / 8) (11 / 8)
      (by norm_num) (by with_unfolding_all decide)⟩
